import Mathlib

/-!
Formal model of the GlobalTags Vencord plugin
(`src/plugins/globalTags/index.tsx`).

The plugin is a thin HTTP client with an in-memory cache of tags.  We embed
its pure logic shallowly:

* a fetched JSON value is a record of optional fields (`TagValue`), so that a
  body lacking the `owner_id` field is representable, as the code checks for
  that with `"owner_id" in tag`;
* the cache (a JS `Map` from tag name to value) is an association list with
  the usual `has`/`get`/`set`/`delete` operations;
* network effects are abstracted by outcome parameters: each operation takes
  the outcome of its single HTTP round-trip (exception, non-ok status, or a
  parsed body) and returns its result together with the updated cache;
* the command handlers (`execute` cases of the slash command) become pure
  functions from their inputs and request outcomes to the chat action they
  perform, the resulting cache, and a record of which request they issued.

The inline message interceptor described in the specification is not present
in this source tree; it is modelled from the specification text (see
`inlineIntercept` below).
-/

/-- A parsed JSON tag value as returned by the server.  Every field is
optional: the code never validates the body, and its existence checks are
literally `"owner_id" in tag`. -/
structure TagValue where
  name : Option String
  message : Option String
  owner_id : Option String
deriving DecidableEq, Repr

/-- The request body of `createTag` (`TagSchema` in the source). -/
structure TagSchema where
  name : String
  message : String
  owner : String
  owner_id : String
  key : String
deriving DecidableEq, Repr

/-- The parsed body of a create/delete response (`ApiResponse` in the
source); the optional `data` field is never read and is omitted. -/
structure ApiResponse where
  success : Bool
  error : Option String
deriving DecidableEq, Repr

/-- The tags cache (`settings.store.tagsCache`, a JS `Map` keyed by tag
name), as an association list. -/
abbrev Cache := List (String × TagValue)

/-- `Map.get` (and `Map.has` via `isSome`). -/
def cacheGet : Cache → String → Option TagValue
  | [], _ => none
  | (k', v) :: rest, k => if k' = k then some v else cacheGet rest k

/-- `Map.set`: replace the entry for the key if present, else append. -/
def cacheSet : Cache → String → TagValue → Cache
  | [], k, v => [(k, v)]
  | (k', v') :: rest, k, v =>
    if k' = k then (k, v) :: rest else (k', v') :: cacheSet rest k v

/-- `Map.delete`: remove the entry for the key. -/
def cacheDelete : Cache → String → Cache
  | [], _ => []
  | (k', v') :: rest, k =>
    if k' = k then cacheDelete rest k else (k', v') :: cacheDelete rest k

/-- Outcome of the single GET round-trip of `fetchTag`: an exception thrown
by `fetch` or `response.json()`, a non-ok HTTP status, or a parsed body. -/
inductive GetOutcome where
  | netErr
  | httpErr
  | ok (data : TagValue)
deriving DecidableEq, Repr

/-- Outcome of the round-trip of `deleteTag`/`createTag`: an exception
(carrying its rendered `String(err)` text) or a parsed `ApiResponse` body
(note the code parses the body without checking `response.ok`). -/
inductive ReqOutcome where
  | exn (msg : String)
  | reply (data : ApiResponse)
deriving DecidableEq, Repr

/-- Outcome of the GET round-trip of `fetchTags`. -/
inductive ListOutcome where
  | exn
  | httpErr
  | ok (tags : List TagValue)
deriving DecidableEq, Repr

/-- Result of `fetchTag`: the returned value, the cache afterwards, and the
URL of the GET request it issued, if any. -/
structure FetchTagResult where
  result : Option TagValue
  cache : Cache
  request : Option String
deriving DecidableEq, Repr

/-- `fetchTag(tagName)`: return the cached entry if the cache has the name;
otherwise GET `{serverUrl}/tags/{tagName}`; `undefined` on non-ok status or
exception; on success store the parsed body in the cache and return it. -/
def fetchTag (serverUrl : String) (cache : Cache) (tagName : String)
    (o : GetOutcome) : FetchTagResult :=
  match cacheGet cache tagName with
  | some v => ⟨some v, cache, none⟩
  | none =>
    let url := serverUrl ++ "/tags/" ++ tagName
    match o with
    | .netErr => ⟨none, cache, some url⟩
    | .httpErr => ⟨none, cache, some url⟩
    | .ok data => ⟨some data, cacheSet cache tagName data, some url⟩

/-- `fetchTags(userId?)`: GET `{serverUrl}/tags`; `[]` on non-ok status or
exception; on success, if `userId` is truthy (supplied and non-empty, per JS
`if (userId)`), filter by `tag.owner_id === userId`. -/
def fetchTags (userId : Option String) (o : ListOutcome) : List TagValue :=
  match o with
  | .exn => []
  | .httpErr => []
  | .ok tags =>
    match userId with
    | some uid =>
      if uid = "" then tags
      else tags.filter (fun tag => tag.owner_id == some uid)
    | none => tags

/-- `deleteTag(tagName)`: DELETE the tag; on a parsed body with
`success: true`, delete the name from the cache; on an exception return
`{success: false, error: String(err)}` leaving the cache alone. -/
def deleteTag (cache : Cache) (tagName : String) (o : ReqOutcome) :
    ApiResponse × Cache :=
  match o with
  | .reply data => (data, if data.success then cacheDelete cache tagName else cache)
  | .exn msg => (⟨false, some msg⟩, cache)

/-- `createTag(tag)`: POST the tag; on a parsed body with `success: true`,
delete `tag.name` from the cache; on an exception return
`{success: false, error: String(err)}` leaving the cache alone. -/
def createTag (cache : Cache) (tag : TagSchema) (o : ReqOutcome) :
    ApiResponse × Cache :=
  match o with
  | .reply data => (data, if data.success then cacheDelete cache tag.name else cache)
  | .exn msg => (⟨false, some msg⟩, cache)

lemma cacheGet_cacheDelete (c : Cache) (k : String) :
    cacheGet (cacheDelete c k) k = none := by
  induction c with
  | nil => rfl
  | cons p rest ih =>
    obtain ⟨k', v'⟩ := p
    by_cases h : k' = k <;> simp [cacheDelete, cacheGet, h, ih]

/-- Claim C1: for every tag name, `deleteTag`/`createTag` remove the cache
entry for that name exactly when the parsed response has `success: true`;
on a `success: false` body or an exception the cache is left unchanged. -/
theorem tag_write_cache_invalidation (cache : Cache) (tagName : String)
    (tag : TagSchema) (o₁ o₂ : ReqOutcome) :
    ((deleteTag cache tagName o₁).2 =
      if (deleteTag cache tagName o₁).1.success then cacheDelete cache tagName
      else cache) ∧
    ((createTag cache tag o₂).2 =
      if (createTag cache tag o₂).1.success then cacheDelete cache tag.name
      else cache) ∧
    cacheGet (cacheDelete cache tagName) tagName = none ∧
    cacheGet (cacheDelete cache tag.name) tag.name = none := by
  refine ⟨?_, ?_, cacheGet_cacheDelete cache tagName, cacheGet_cacheDelete cache tag.name⟩
  · cases o₁ with
    | reply data => cases h : data.success <;> simp [deleteTag, h]
    | exn msg => simp [deleteTag]
  · cases o₂ with
    | reply data => cases h : data.success <;> simp [createTag, h]
    | exn msg => simp [createTag]

/-- Claim C2: `fetchTag` returns the cached entry on a cache hit, issuing no
request; on a miss it issues a GET to `{serverUrl}/tags/{name}`, returns
`none` (cache untouched) on non-ok status or exception, and on success
stores the parsed body under the name and returns it. -/
theorem fetchTag_spec (serverUrl : String) (cache : Cache) (tagName : String)
    (o : GetOutcome) :
    (∀ v, cacheGet cache tagName = some v →
      fetchTag serverUrl cache tagName o = ⟨some v, cache, none⟩) ∧
    (cacheGet cache tagName = none →
      ((o = GetOutcome.netErr ∨ o = GetOutcome.httpErr) →
        fetchTag serverUrl cache tagName o =
          ⟨none, cache, some (serverUrl ++ "/tags/" ++ tagName)⟩) ∧
      (∀ d, o = GetOutcome.ok d →
        fetchTag serverUrl cache tagName o =
          ⟨some d, cacheSet cache tagName d, some (serverUrl ++ "/tags/" ++ tagName)⟩)) := by
  constructor
  · intro v hv
    simp [fetchTag, hv]
  · intro hmiss
    constructor
    · rintro (rfl | rfl) <;> simp [fetchTag, hmiss]
    · rintro d rfl
      simp [fetchTag, hmiss]

/-- Witness for C2 at concrete inputs: a cache hit returns the cached value
without a request, and a miss with a parsed body caches and returns it. -/
theorem fetchTag_spec_witness :
    fetchTag "http://s" [("a", ⟨some "a", some "hi", some "u1"⟩)] "a" GetOutcome.netErr
      = ⟨some ⟨some "a", some "hi", some "u1"⟩, [("a", ⟨some "a", some "hi", some "u1"⟩)], none⟩ ∧
    fetchTag "http://s" [] "b" (GetOutcome.ok ⟨some "b", some "yo", some "u2"⟩)
      = ⟨some ⟨some "b", some "yo", some "u2"⟩,
          [("b", ⟨some "b", some "yo", some "u2"⟩)], some "http://s/tags/b"⟩ :=
  ⟨(fetchTag_spec "http://s" [("a", ⟨some "a", some "hi", some "u1"⟩)] "a"
      GetOutcome.netErr).1 ⟨some "a", some "hi", some "u1"⟩ (by decide),
   ((fetchTag_spec "http://s" [] "b" (GetOutcome.ok ⟨some "b", some "yo", some "u2"⟩)).2
      (by decide)).2 ⟨some "b", some "yo", some "u2"⟩ rfl⟩

/-- The chat action a command handler ends with: `sendBotMessage` (a Clyde
message; `ephemeral` records whether `flags: 64` was set), returning an
inline `{content}` reply, or `sendMessage` (a normal chat message). -/
inductive CmdResult where
  | bot (content : String) (ephemeral : Bool)
  | reply (content : String)
  | send (content : String)
deriving DecidableEq, Repr

/-- The `delete` sub-command handler (`case "delete"` of `execute`): fetch
the tag; report non-existence when absent or lacking `owner_id`; report the
owner when `owner_id` differs from the current user's id; otherwise call
`deleteTag` and report success or the error text.  The third component
records whether a DELETE request was issued. -/
def execDelete (serverUrl : String) (cache : Cache) (tagName : String)
    (fo : GetOutcome) (currentUserId : String) (del : ReqOutcome) :
    CmdResult × Cache × Bool :=
  let fr := fetchTag serverUrl cache tagName fo
  match fr.result with
  | none =>
    (CmdResult.bot (s!"\x27{tagName}\x27 does not exist! <a:pop:1333844597352300564>") false,
      fr.cache, false)
  | some tv =>
    match tv.owner_id with
    | none =>
      (CmdResult.bot (s!"\x27{tagName}\x27 does not exist! <a:pop:1333844597352300564>") false,
        fr.cache, false)
    | some oid =>
      if oid ≠ currentUserId then
        (CmdResult.bot (s!"Tag \x27{tagName}\x27 is owned by <@{oid}>! <a:pop:1333844597352300564>") false,
          fr.cache, false)
      else
        let rc := deleteTag fr.cache tagName del
        if rc.1.success then
          (CmdResult.bot (s!"\x27{tagName}\x27 deleted successfully! <a:pop:1333844597352300564>") false,
            rc.2, true)
        else
          (CmdResult.bot ("Failed to delete tag: " ++ rc.1.error.getD "Unknown error") false,
            rc.2, true)

/-- The `create` sub-command handler (`case "create"` of `execute`): fetch
the tag; if a value with an `owner_id` field came back, report that it
already exists (no POST); otherwise call `createTag` with the current user's
username and id and report success or the error text.  The third component
records the `TagSchema` POSTed, if any. -/
def execCreate (serverUrl : String) (cache : Cache) (tagName tagMessage : String)
    (fo : GetOutcome) (username currentUserId serverKey : String) (co : ReqOutcome) :
    CmdResult × Cache × Option TagSchema :=
  let fr := fetchTag serverUrl cache tagName fo
  let go : Cache → CmdResult × Cache × Option TagSchema := fun c =>
    let tag : TagSchema := ⟨tagName, tagMessage, username, currentUserId, serverKey⟩
    let rc := createTag c tag co
    if rc.1.success then
      (CmdResult.bot (s!"\x27{tagName}\x27 created successfully! <a:pop:1333844597352300564>") false,
        rc.2, some tag)
    else
      (CmdResult.bot ("Failed to create tag: " ++ rc.1.error.getD "Unknown error") false,
        rc.2, some tag)
  match fr.result with
  | some tv =>
    match tv.owner_id with
    | some _ =>
      (CmdResult.bot (s!"\x27{tagName}\x27 already exists! <a:pop:1333844597352300564>") false,
        fr.cache, none)
    | none => go fr.cache
  | none => go fr.cache

/-- Claim C3: the delete sub-command fails with a does-not-exist message
when the fetched tag is absent or lacks an owner identity; fails reporting
the current owner (without deleting) when `owner_id` differs from the
invoking user's id; and otherwise calls `deleteTag` and reports success or
the error text. -/
theorem delete_command_spec (serverUrl : String) (cache : Cache)
    (tagName : String) (fo : GetOutcome) (uid : String) (del : ReqOutcome) :
    ((fetchTag serverUrl cache tagName fo).result = none →
      execDelete serverUrl cache tagName fo uid del =
        (CmdResult.bot (s!"\x27{tagName}\x27 does not exist! <a:pop:1333844597352300564>") false,
          (fetchTag serverUrl cache tagName fo).cache, false)) ∧
    (∀ tv, (fetchTag serverUrl cache tagName fo).result = some tv →
      tv.owner_id = none →
      execDelete serverUrl cache tagName fo uid del =
        (CmdResult.bot (s!"\x27{tagName}\x27 does not exist! <a:pop:1333844597352300564>") false,
          (fetchTag serverUrl cache tagName fo).cache, false)) ∧
    (∀ tv oid, (fetchTag serverUrl cache tagName fo).result = some tv →
      tv.owner_id = some oid → oid ≠ uid →
      execDelete serverUrl cache tagName fo uid del =
        (CmdResult.bot (s!"Tag \x27{tagName}\x27 is owned by <@{oid}>! <a:pop:1333844597352300564>") false,
          (fetchTag serverUrl cache tagName fo).cache, false)) ∧
    (∀ tv oid, (fetchTag serverUrl cache tagName fo).result = some tv →
      tv.owner_id = some oid → oid = uid →
      execDelete serverUrl cache tagName fo uid del =
        ((if (deleteTag (fetchTag serverUrl cache tagName fo).cache tagName del).1.success then
            CmdResult.bot (s!"\x27{tagName}\x27 deleted successfully! <a:pop:1333844597352300564>") false
          else
            CmdResult.bot ("Failed to delete tag: " ++
              (deleteTag (fetchTag serverUrl cache tagName fo).cache tagName del).1.error.getD "Unknown error") false),
          (deleteTag (fetchTag serverUrl cache tagName fo).cache tagName del).2, true)) := by
  refine ⟨?_, ?_, ?_, ?_⟩
  · intro h
    simp only [execDelete, h]
  · intro tv h ho
    simp only [execDelete, h, ho]
  · intro tv oid h ho hne
    simp only [execDelete, h, ho, if_pos hne]
  · intro tv oid h ho heq
    subst heq
    simp only [execDelete, h, ho, ne_eq, not_true_eq_false, if_false]
    split <;> rfl

/-- Witness for C3 at concrete inputs: a cached tag owned by another user is
reported as owned by them and no DELETE is issued; the owner's own delete
succeeds and reports success. -/
theorem delete_command_spec_witness :
    execDelete "http://s" [("t", ⟨some "t", some "m", some "u2"⟩)] "t"
        GetOutcome.netErr "u1" (ReqOutcome.reply ⟨true, none⟩) =
      (CmdResult.bot "Tag \x27t\x27 is owned by <@u2>! <a:pop:1333844597352300564>" false,
        [("t", ⟨some "t", some "m", some "u2"⟩)], false) ∧
    execDelete "http://s" [("t", ⟨some "t", some "m", some "u2"⟩)] "t"
        GetOutcome.netErr "u2" (ReqOutcome.reply ⟨true, none⟩) =
      (CmdResult.bot "\x27t\x27 deleted successfully! <a:pop:1333844597352300564>" false,
        [], true) := by
  constructor
  · have h := (delete_command_spec "http://s" [("t", ⟨some "t", some "m", some "u2"⟩)]
      "t" GetOutcome.netErr "u1" (ReqOutcome.reply ⟨true, none⟩)).2.2.1
      ⟨some "t", some "m", some "u2"⟩ "u2" (by decide) rfl (by decide)
    exact h.trans (by decide)
  · have h := (delete_command_spec "http://s" [("t", ⟨some "t", some "m", some "u2"⟩)]
      "t" GetOutcome.netErr "u2" (ReqOutcome.reply ⟨true, none⟩)).2.2.2
      ⟨some "t", some "m", some "u2"⟩ "u2" (by decide) rfl rfl
    exact h.trans (by decide)

/-- Claim C4: the create sub-command fails with an already-exists message
(issuing no POST) when the fetch returned a value carrying an `owner_id`
field; otherwise (absent value, or a value without that field) it calls
`createTag` with the invoking user's username and id as `owner`/`owner_id`
and reports success or the server's error text. -/
theorem create_command_spec (serverUrl : String) (cache : Cache)
    (tagName tagMessage : String) (fo : GetOutcome)
    (username uid serverKey : String) (co : ReqOutcome) :
    (∀ tv oid, (fetchTag serverUrl cache tagName fo).result = some tv →
      tv.owner_id = some oid →
      execCreate serverUrl cache tagName tagMessage fo username uid serverKey co =
        (CmdResult.bot (s!"\x27{tagName}\x27 already exists! <a:pop:1333844597352300564>") false,
          (fetchTag serverUrl cache tagName fo).cache, none)) ∧
    (((fetchTag serverUrl cache tagName fo).result = none ∨
      (∃ tv, (fetchTag serverUrl cache tagName fo).result = some tv ∧ tv.owner_id = none)) →
      execCreate serverUrl cache tagName tagMessage fo username uid serverKey co =
        ((if (createTag (fetchTag serverUrl cache tagName fo).cache
              ⟨tagName, tagMessage, username, uid, serverKey⟩ co).1.success then
            CmdResult.bot (s!"\x27{tagName}\x27 created successfully! <a:pop:1333844597352300564>") false
          else
            CmdResult.bot ("Failed to create tag: " ++
              (createTag (fetchTag serverUrl cache tagName fo).cache
                ⟨tagName, tagMessage, username, uid, serverKey⟩ co).1.error.getD "Unknown error") false),
          (createTag (fetchTag serverUrl cache tagName fo).cache
            ⟨tagName, tagMessage, username, uid, serverKey⟩ co).2,
          some ⟨tagName, tagMessage, username, uid, serverKey⟩)) := by
  constructor
  · intro tv oid h ho
    simp only [execCreate, h, ho]
  · rintro (h | ⟨tv, h, ho⟩)
    · simp only [execCreate, h]
      split <;> rfl
    · simp only [execCreate, h, ho]
      split <;> rfl

/-- Witness for C4 at concrete inputs: a cached tag with an owner blocks
creation with no POST issued; a miss followed by a successful POST reports
success, carrying the invoking user's identity in the request. -/
theorem create_command_spec_witness :
    execCreate "http://s" [("t", ⟨some "t", some "m", some "u2"⟩)] "t" "msg"
        GetOutcome.netErr "alice" "u1" "k" (ReqOutcome.reply ⟨true, none⟩) =
      (CmdResult.bot "\x27t\x27 already exists! <a:pop:1333844597352300564>" false,
        [("t", ⟨some "t", some "m", some "u2"⟩)], none) ∧
    execCreate "http://s" [] "t" "msg"
        GetOutcome.httpErr "alice" "u1" "k" (ReqOutcome.reply ⟨true, none⟩) =
      (CmdResult.bot "\x27t\x27 created successfully! <a:pop:1333844597352300564>" false,
        [], some ⟨"t", "msg", "alice", "u1", "k"⟩) := by
  constructor
  · have h := (create_command_spec "http://s" [("t", ⟨some "t", some "m", some "u2"⟩)]
      "t" "msg" GetOutcome.netErr "alice" "u1" "k" (ReqOutcome.reply ⟨true, none⟩)).1
      ⟨some "t", some "m", some "u2"⟩ "u2" (by decide) rfl
    exact h.trans (by decide)
  · have h := (create_command_spec "http://s" [] "t" "msg" GetOutcome.httpErr
      "alice" "u1" "k" (ReqOutcome.reply ⟨true, none⟩)).2 (Or.inl (by decide))
    exact h.trans (by decide)

/-- First index at which `pat` occurs as a sublist of the haystack, i.e.
JavaScript `hay.indexOf(pat)` on the character lists of the strings. -/
def subIdx0 (pat : List Char) : List Char → Option Nat
  | [] => if pat.isPrefixOf ([] : List Char) then some 0 else none
  | c :: rest =>
    if pat.isPrefixOf (c :: rest) then some 0
    else (subIdx0 pat rest).map (fun k => k + 1)

/-- JavaScript `text.indexOf(start); text.indexOf(end, startIdx + start.length)`
pipeline: the `trimStr` helper removes the first
`start ... end` span, searching for `end` only from the position just after
the found `start`; if either search fails the text is returned unchanged. -/
def trimStr (start stop text : String) : String :=
  match subIdx0 start.data text.data with
  | none => text
  | some startIdx =>
    match (subIdx0 stop.data (text.data.drop (startIdx + start.length))).map
        (fun k => k + (startIdx + start.length)) with
    | none => text
    | some endIdx =>
      String.mk (text.data.take startIdx) ++ String.mk (text.data.drop (endIdx + stop.length))

lemma subIdx0_eq_none (pat : List Char) :
    ∀ t : List Char, subIdx0 pat t = none ↔ ∀ j, pat.isPrefixOf (t.drop j) = false := by
  intro t
  induction t with
  | nil =>
    by_cases hp : pat.isPrefixOf ([] : List Char) = true
    · simp [subIdx0, hp]
    · simp only [Bool.not_eq_true] at hp
      simp [subIdx0, hp]
  | cons c rest ih =>
    have hsplit : (∀ j, pat.isPrefixOf ((c :: rest).drop j) = false)
        ↔ pat.isPrefixOf (c :: rest) = false ∧ ∀ j, pat.isPrefixOf (rest.drop j) = false := by
      constructor
      · intro h
        exact ⟨h 0, fun j => h (j + 1)⟩
      · rintro ⟨h0, h⟩ j
        cases j with
        | zero => exact h0
        | succ j => exact h j
    rw [hsplit, ← ih]
    by_cases hp : pat.isPrefixOf (c :: rest) = true
    · simp [subIdx0, hp]
    · simp only [Bool.not_eq_true] at hp
      simp [subIdx0, hp, Option.map_eq_none']

lemma subIdx0_eq_some (pat : List Char) :
    ∀ (t : List Char) (i : Nat), subIdx0 pat t = some i →
      pat.isPrefixOf (t.drop i) = true ∧ ∀ j, j < i → pat.isPrefixOf (t.drop j) = false := by
  intro t
  induction t with
  | nil =>
    intro i h
    by_cases hp : pat.isPrefixOf ([] : List Char) = true
    · simp [subIdx0, hp] at h
      subst h
      exact ⟨by simpa using hp, fun j hj => absurd hj (Nat.not_lt_zero j)⟩
    · simp only [Bool.not_eq_true] at hp
      simp [subIdx0, hp] at h
  | cons c rest ih =>
    intro i h
    by_cases hp : pat.isPrefixOf (c :: rest) = true
    · simp [subIdx0, hp] at h
      subst h
      exact ⟨by simpa using hp, fun j hj => absurd hj (Nat.not_lt_zero j)⟩
    · simp only [Bool.not_eq_true] at hp
      simp only [subIdx0, hp, Bool.false_eq_true, if_false, Option.map_eq_some'] at h
      obtain ⟨i', hi', rfl⟩ := h
      obtain ⟨h1, h2⟩ := ih i' hi'
      refine ⟨by simpa using h1, ?_⟩
      intro j hj
      cases j with
      | zero => simpa using hp
      | succ j => simpa using h2 j (Nat.lt_of_succ_lt_succ hj)

lemma subIdx0_some_of (pat t : List Char) (i : Nat)
    (h1 : pat.isPrefixOf (t.drop i) = true)
    (h2 : ∀ j, j < i → pat.isPrefixOf (t.drop j) = false) :
    subIdx0 pat t = some i := by
  cases h : subIdx0 pat t with
  | none =>
    have := (subIdx0_eq_none pat t).mp h i
    rw [this] at h1
    exact absurd h1 (by simp)
  | some i' =>
    obtain ⟨h1', h2'⟩ := subIdx0_eq_some pat t i' h
    rcases Nat.lt_trichotomy i i' with hlt | heq | hgt
    · rw [h2' i hlt] at h1
      exact absurd h1 (by simp)
    · rw [heq]
    · rw [h2 i' hgt] at h1'
      exact absurd h1' (by simp)

lemma isPrefixOf_drop_ge (p t : List Char) (hp : p ≠ []) (j : Nat)
    (h : t.length ≤ j) : p.isPrefixOf (t.drop j) = false := by
  rw [List.drop_eq_nil_of_le h]
  cases p with
  | nil => exact absurd rfl hp
  | cons a as => rfl

lemma lt_length_of_isPrefixOf_drop (p t : List Char) (hp : p ≠ []) (j : Nat)
    (h : p.isPrefixOf (t.drop j) = true) : j < t.length := by
  by_contra hge
  rw [isPrefixOf_drop_ge p t hp j (Nat.le_of_not_lt hge)] at h
  exact absurd h (by simp)

lemma forall_isPrefixOf_drop_false (p t : List Char) (hp : p ≠ [])
    (h : ∀ j, j < t.length → p.isPrefixOf (t.drop j) = false) :
    ∀ j, p.isPrefixOf (t.drop j) = false := by
  intro j
  by_cases hj : j < t.length
  · exact h j hj
  · exact isPrefixOf_drop_ge p t hp j (Nat.le_of_not_lt hj)

/-- Claim C6: `trimStr` removes exactly the first occurrence of the span
from the first occurrence of the start marker through its matching end
marker (the first occurrence of the end marker at or after the end of the
start marker), inclusive; on the concrete example
`"A<think>B</think>C"` it yields `"AC"`; if either marker does not occur in
the text, the text is returned unchanged. -/
theorem trimStr_spec (start stop text : String) :
    trimStr "<think>" "</think>" "A<think>B</think>C" = "AC" ∧
    ((∀ j, start.data.isPrefixOf (text.data.drop j) = false) →
      trimStr start stop text = text) ∧
    ((∀ j, stop.data.isPrefixOf (text.data.drop j) = false) →
      trimStr start stop text = text) ∧
    (∀ s e, start.data.isPrefixOf (text.data.drop s) = true →
      (∀ j, j < s → start.data.isPrefixOf (text.data.drop j) = false) →
      s + start.length ≤ e →
      stop.data.isPrefixOf (text.data.drop e) = true →
      (∀ j, s + start.length ≤ j → j < e → stop.data.isPrefixOf (text.data.drop j) = false) →
      trimStr start stop text =
        String.mk (text.data.take s) ++ String.mk (text.data.drop (e + stop.length))) := by
  refine ⟨by decide, ?_, ?_, ?_⟩
  · intro h
    have hn : subIdx0 start.data text.data = none := (subIdx0_eq_none _ _).mpr h
    simp [trimStr, hn]
  · intro h
    cases hs : subIdx0 start.data text.data with
    | none => simp [trimStr, hs]
    | some s =>
      have hn : subIdx0 stop.data (text.data.drop (s + start.length)) = none := by
        refine (subIdx0_eq_none _ _).mpr ?_
        intro j
        rw [List.drop_drop]
        exact h (s + start.length + j)
      simp [trimStr, hs, hn]
  · intro s e h1 h2 hle h3 h4
    have hstart : subIdx0 start.data text.data = some s := subIdx0_some_of _ _ s h1 h2
    have hstop : subIdx0 stop.data (text.data.drop (s + start.length))
        = some (e - (s + start.length)) := by
      apply subIdx0_some_of
      · rw [List.drop_drop, Nat.add_sub_cancel' hle]
        exact h3
      · intro j hj
        rw [List.drop_drop]
        exact h4 (s + start.length + j) (Nat.le_add_right _ _) (by omega)
    have he : e - (s + start.length) + (s + start.length) = e := Nat.sub_add_cancel hle
    simp [trimStr, hstart, hstop, he]

/-- Witness for C6 with the hypotheses discharged at concrete inputs: a text
with neither marker is unchanged, and the general removal clause reproduces
the concrete example. -/
theorem trimStr_spec_witness :
    trimStr "<think>" "</think>" "AC" = "AC" ∧
    trimStr "<think>" "</think>" "A<think>B</think>C" =
      String.mk (("A<think>B</think>C" : String).data.take 1) ++
        String.mk (("A<think>B</think>C" : String).data.drop (9 + ("</think>" : String).length)) := by
  constructor
  · exact (trimStr_spec "<think>" "</think>" "AC").2.1
      (forall_isPrefixOf_drop_false _ _ (by decide) (by decide))
  · exact (trimStr_spec "<think>" "</think>" "A<think>B</think>C").2.2.2 1 9
      (by decide) (by decide) (by decide) (by decide)
      (fun j hj1 hj2 => by
        interval_cases j <;> decide)

/-- Claim C9: when the start marker occurs but every occurrence of the end
marker starts strictly before the end of the first start-marker occurrence
(the end-marker search begins only at that point), `trimStr` returns the
text unchanged. -/
theorem trimStr_end_before_start (start stop text : String) (s : Nat)
    (h1 : start.data.isPrefixOf (text.data.drop s) = true)
    (h2 : ∀ j, j < s → start.data.isPrefixOf (text.data.drop j) = false)
    (h3 : ∀ j, stop.data.isPrefixOf (text.data.drop j) = true → j < s + start.length) :
    trimStr start stop text = text := by
  have hstart : subIdx0 start.data text.data = some s := subIdx0_some_of _ _ s h1 h2
  have hn : subIdx0 stop.data (text.data.drop (s + start.length)) = none := by
    refine (subIdx0_eq_none _ _).mpr ?_
    intro j
    rw [List.drop_drop]
    cases h : stop.data.isPrefixOf (text.data.drop (s + start.length + j)) with
    | false => rfl
    | true => exact absurd (h3 _ h) (by omega)
  simp [trimStr, hstart, hn]

/-- Witness for C9 at a concrete input: in `"</think>A<think>B"` the end
marker occurs only before the start marker, so the text is unchanged. -/
theorem trimStr_end_before_start_witness :
    trimStr "<think>" "</think>" "</think>A<think>B" = "</think>A<think>B" := by
  have hb : ∀ j, j < 17 →
      ("</think>" : String).data.isPrefixOf (("</think>A<think>B" : String).data.drop j) = true →
      j < 9 + ("<think>" : String).length := by decide
  exact trimStr_end_before_start "<think>" "</think>" "</think>A<think>B" 9
    (by decide) (by decide)
    (fun j h => hb j
      (lt_length_of_isPrefixOf_drop _ _ (by decide) j h) h)

/-- Claim C7 counterexample: a call that supplies the empty string as owner
id is falsy in the JS `if (userId)` guard, so no filtering happens and a tag
whose `owner_id` differs from the supplied id is still returned. -/
theorem fetchTags_empty_owner_cex :
    fetchTags (some "") (ListOutcome.ok [⟨some "t", some "m", some "x"⟩]) =
      [⟨some "t", some "m", some "x"⟩] ∧
    (⟨some "t", some "m", some "x"⟩ : TagValue).owner_id ≠ some "" := by
  decide

/-- Claim C7 (amended): on a successful response, a supplied non-empty owner
id filters to exactly the parsed tags whose `owner_id` equals it, in
original order; a supplied empty id (falsy) disables filtering; on non-ok
status or an exception the result is the empty list. -/
theorem fetchTags_spec (uid : String) (tags : List TagValue) :
    (uid ≠ "" → fetchTags (some uid) (ListOutcome.ok tags) =
      tags.filter (fun tag => tag.owner_id == some uid)) ∧
    fetchTags (some "") (ListOutcome.ok tags) = tags ∧
    fetchTags none (ListOutcome.ok tags) = tags ∧
    fetchTags (some uid) ListOutcome.exn = [] ∧
    fetchTags (some uid) ListOutcome.httpErr = [] := by
  refine ⟨?_, rfl, rfl, rfl, rfl⟩
  intro h
  simp [fetchTags, h]

/-- Witness for C7 at a concrete input: a non-empty owner id keeps exactly
the matching tags. -/
theorem fetchTags_spec_witness :
    fetchTags (some "u1")
        (ListOutcome.ok [⟨some "a", some "m", some "u1"⟩, ⟨some "b", some "m", some "u2"⟩]) =
      [⟨some "a", some "m", some "u1"⟩, ⟨some "b", some "m", some "u2"⟩].filter
        (fun tag => tag.owner_id == some "u1") :=
  (fetchTags_spec "u1"
    [⟨some "a", some "m", some "u1"⟩, ⟨some "b", some "m", some "u2"⟩]).1 (by decide)

/-- The generation-related plugin settings. -/
structure GenSettings where
  ollamaUrl : String
  ollamaKey : String
  ollamaModel : String
deriving DecidableEq, Repr

/-- The fixed diagnostic placeholder returned when the parsed generation
body has no usable `response` field. -/
def malformedResponseMsg : String :=
  "Received malformed response from Ollama. Check plugin logs for details."

/-- Outcome of the POST round-trip of `generateWithOllama`: an exception, a
non-ok HTTP status, or a parsed body whose `response` field may be absent. -/
inductive GenOutcome where
  | exn
  | httpErr (status : Nat)
  | ok (response : Option String)
deriving DecidableEq, Repr

/-- `generateWithOllama(prompt)`: `undefined` when no URL is configured, on
non-ok status, or on an exception; on success, the diagnostic placeholder
when `data.response` is falsy (absent or empty), else the generated text
with the first `<think> ... </think>` span removed by `trimStr`. -/
def generateWithOllama (cfg : GenSettings) (o : GenOutcome) : Option String :=
  if cfg.ollamaUrl = "" then none
  else
    match o with
    | .exn => none
    | .httpErr _ => none
    | .ok r =>
      match r with
      | none => some malformedResponseMsg
      | some s =>
        if s = "" then some malformedResponseMsg
        else some (trimStr "<think>" "</think>" s)

/-- Claim C10: on a successful generation response whose parsed body's
`response` field is absent or the empty string (falsy), `generateWithOllama`
returns the fixed diagnostic placeholder rather than the empty text or a
failure. -/
theorem generate_malformed_placeholder (cfg : GenSettings) (r : Option String)
    (hurl : cfg.ollamaUrl ≠ "") (hr : r = none ∨ r = some "") :
    generateWithOllama cfg (GenOutcome.ok r) = some malformedResponseMsg := by
  rcases hr with rfl | rfl <;> simp [generateWithOllama, hurl]

/-- Witness for C10 at concrete inputs: both falsy shapes of the `response`
field yield the placeholder. -/
theorem generate_malformed_placeholder_witness :
    generateWithOllama ⟨"http://o", "", "m"⟩ (GenOutcome.ok none) = some malformedResponseMsg ∧
    generateWithOllama ⟨"http://o", "", "m"⟩ (GenOutcome.ok (some "")) = some malformedResponseMsg :=
  ⟨generate_malformed_placeholder ⟨"http://o", "", "m"⟩ none (by decide) (Or.inl rfl),
   generate_malformed_placeholder ⟨"http://o", "", "m"⟩ (some "") (by decide) (Or.inr rfl)⟩

/-- The `prompt` sub-command handler (`case "prompt"` of `execute`), as a
function of the generation result and the optional `send` option
(`findOption(args, "send", false)` gives `sendOpt.getD false`).  The JS
guard is `if (!response)`, so an empty generated string takes the failure
branch. -/
def execPrompt (genResult : Option String) (sendOpt : Option Bool) : CmdResult :=
  let send := sendOpt.getD false
  match genResult with
  | none => CmdResult.bot "Failed to generate with Ollama" true
  | some r =>
    if r = "" then CmdResult.bot "Failed to generate with Ollama" true
    else if send then CmdResult.send r
    else CmdResult.bot r true

/-- Claim C8 counterexample: a generation that succeeds with empty text
(reachable: a body whose `response` is exactly one `<think>` span trims to
`""`) is reported as the requester-only failure message even with
`send: true`, not posted as the generated text. -/
theorem prompt_empty_generation_cex :
    generateWithOllama ⟨"http://o", "", "m"⟩ (GenOutcome.ok (some "<think>x</think>"))
      = some "" ∧
    execPrompt (some "") (some true) = CmdResult.bot "Failed to generate with Ollama" true ∧
    execPrompt (some "") (some true) ≠ CmdResult.send "" := by
  decide

/-- Claim C8 (amended): an absent generation result — or a present but empty
one, which the `if (!response)` guard conflates with failure — yields the
requester-only error message; a non-empty result is posted as a normal chat
message when `send` is true and as a requester-only message otherwise; an
omitted `send` option behaves as `false`. -/
theorem prompt_command_spec (g : Option String) (sendOpt : Option Bool) :
    (g = none → execPrompt g sendOpt = CmdResult.bot "Failed to generate with Ollama" true) ∧
    execPrompt (some "") sendOpt = CmdResult.bot "Failed to generate with Ollama" true ∧
    (∀ r, g = some r → r ≠ "" →
      execPrompt g sendOpt =
        if sendOpt.getD false then CmdResult.send r else CmdResult.bot r true) ∧
    execPrompt g none = execPrompt g (some false) := by
  refine ⟨?_, rfl, ?_, rfl⟩
  · rintro rfl
    rfl
  · rintro r rfl hr
    simp [execPrompt, hr]

/-- Witness for C8 at concrete inputs: failure posts the requester-only
error, and a non-empty result with `send: true` is sent as a normal chat
message. -/
theorem prompt_command_spec_witness :
    execPrompt none (some true) = CmdResult.bot "Failed to generate with Ollama" true ∧
    execPrompt (some "hi") (some true) =
      (if (some true : Option Bool).getD false then CmdResult.send "hi"
       else CmdResult.bot "hi" true) :=
  ⟨(prompt_command_spec none (some true)).1 rfl,
   (prompt_command_spec (some "hi") (some true)).2.2.1 "hi" rfl (by decide)⟩

/-- The reserved inline marker, per the specification's inline-trigger
property (`"gt!myname"` looks up tag `"myname"`). -/
def inlineMarker : String := "gt!"

/-- What the inline interceptor did with one outgoing message: whether the
message went through the normal send path unmodified, which tag name (if
any) it looked up, and what content (if any) it posted in its place. -/
structure InlineResult where
  sentNormally : Bool
  lookedUp : Option String
  posted : Option String
deriving DecidableEq, Repr

/-- The notice posted when the looked-up tag is absent.  Modelled from the
spec: the interceptor posts "a not-found notice"; its exact wording is not
specified. -/
def inlineNotFoundNotice (name : String) : String := s!"Tag not found: {name}"

/-- Trim ASCII-style whitespace from both ends of a character list. -/
def trimChars (l : List Char) : List Char :=
  ((l.dropWhile Char.isWhitespace).reverse.dropWhile Char.isWhitespace).reverse

/-- Modelled from the spec: the inline message interceptor of §4.3 is not
present in this source tree.  Per the specification: when enabled and the
outgoing text begins with the reserved literal marker, the normal send is
cancelled and the trimmed remainder is used as a tag name whose fetch result
(tag message, or a not-found notice) is posted in its place; an empty
remainder still cancels the send but looks up and posts nothing; otherwise
the message is sent unmodified. -/
def inlineIntercept (enabled : Bool) (text : String) (fetched : Option TagValue) :
    InlineResult :=
  if enabled && inlineMarker.data.isPrefixOf text.data then
    let name := String.mk (trimChars (text.data.drop inlineMarker.length))
    if name = "" then ⟨false, none, none⟩
    else
      match fetched with
      | some tv => ⟨false, some name, some (tv.message.getD "")⟩
      | none => ⟨false, some name, some (inlineNotFoundNotice name)⟩
  else ⟨true, none, none⟩

/-- Claim C5 counterexample: with the feature enabled, a message that is
exactly the reserved marker begins with it, and the normal send is
cancelled, but nothing is looked up and nothing is posted in its place —
contradicting the claim that the remainder is looked up and the result
posted. -/
theorem inline_intercept_empty_name_cex :
    (inlineIntercept true "gt!" none).sentNormally = false ∧
    (inlineIntercept true "gt!" none).lookedUp = none ∧
    (inlineIntercept true "gt!" none).posted = none := by
  decide

/-- Claim C5 (amended): with the feature enabled, a message beginning with
the reserved marker never goes through the normal send; when the trimmed
remainder is non-empty it is looked up as a tag name and the tag message
(or a not-found notice) is posted in its place, while an empty remainder
posts nothing; with the feature disabled the message is sent unmodified. -/
theorem inline_intercept_spec (enabled : Bool) (text : String)
    (fetched : Option TagValue) :
    (enabled = true → inlineMarker.data.isPrefixOf text.data = true →
      (inlineIntercept enabled text fetched).sentNormally = false ∧
      (String.mk (trimChars (text.data.drop inlineMarker.length)) ≠ "" →
        inlineIntercept enabled text fetched =
          ⟨false, some (String.mk (trimChars (text.data.drop inlineMarker.length))),
            some (match fetched with
              | some tv => tv.message.getD ""
              | none => inlineNotFoundNotice
                  (String.mk (trimChars (text.data.drop inlineMarker.length))))⟩) ∧
      (String.mk (trimChars (text.data.drop inlineMarker.length)) = "" →
        inlineIntercept enabled text fetched = ⟨false, none, none⟩)) ∧
    (enabled = false → inlineIntercept enabled text fetched = ⟨true, none, none⟩) := by
  constructor
  · rintro rfl hpre
    refine ⟨?_, ?_, ?_⟩
    · by_cases hname : String.mk (trimChars (text.data.drop inlineMarker.length)) = ""
      · simp [inlineIntercept, hpre, hname]
      · cases fetched <;> simp [inlineIntercept, hpre, hname]
    · intro hname
      cases fetched <;> simp [inlineIntercept, hpre, hname]
    · intro hname
      simp [inlineIntercept, hpre, hname]
  · rintro rfl
    simp [inlineIntercept]

/-- Witness for C5 at concrete inputs: `"gt!myname"` with the feature
enabled and a missed fetch is cancelled and replaced by a not-found notice
for `"myname"`; with the feature disabled it is sent unmodified. -/
theorem inline_intercept_spec_witness :
    inlineIntercept true "gt!myname" none =
      ⟨false, some (String.mk (trimChars (("gt!myname" : String).data.drop inlineMarker.length))),
        some (inlineNotFoundNotice
          (String.mk (trimChars (("gt!myname" : String).data.drop inlineMarker.length))))⟩ ∧
    inlineIntercept false "gt!myname" none = ⟨true, none, none⟩ :=
  ⟨((inline_intercept_spec true "gt!myname" none).1 rfl (by decide)).2.1 (by decide),
   (inline_intercept_spec false "gt!myname" none).2 rfl⟩
